import Mathlib

/-!
Shallow embedding of the GitHub Project Manager client
(src/github-manager/main.cpp): the base64 encoder, the jsoncpp-style JSON
values and accessors the client uses, the HTTP request layer
(GitHubAPI::makeRequest) and the content operations (uploadFile,
uploadFileWithPath, uploadDirectory, deleteFile, getUserInfo, and the
authentication probe of ProjectManager::initialize).

Remote responses are modelled at the parse boundary: the client always
feeds the raw response text to Json::parseFromStream, so a response is
embedded as an optional JSON value — none when parsing fails (the empty
response left by a transport failure, or malformed text), some v when the
body parses as the JSON value v.  The network is an environment mapping
each issued call to its response; the local filesystem maps a path to its
byte content when the file is readable.  Each embedded operation returns
its result together with the list of HTTP calls it issued, in order.
-/

namespace GithubManager

/-- JSON values as seen through jsoncpp (Json::Value).  Where the client
builds payloads, object fields are listed in the key-sorted order in which
Json::Value stores them. -/
inductive JsonVal where
  | str (s : String)
  | num (n : Int)
  | boolean (b : Bool)
  | null
  | obj (fields : List (String × JsonVal))
  | arr (elems : List JsonVal)

/-- Json::Value::isMember. -/
def JsonVal.isMember (j : JsonVal) (key : String) : Bool :=
  match j with
  | .obj fields => fields.any (fun f => f.1 == key)
  | _ => false

/-- jsoncpp bracket access on an object: the named member, or null when the
key is absent. -/
def JsonVal.member (j : JsonVal) (key : String) : JsonVal :=
  match j with
  | .obj fields =>
      match fields.find? (fun f => f.1 == key) with
      | some f => f.2
      | none => .null
  | _ => .null

/-- Json::Value::asString: the string of a string value, and the empty
string for null — the two cases the client exercises (a missing member
read through bracket access yields null, hence the empty string). -/
def JsonVal.asString : JsonVal → String
  | .str s => s
  | _ => ""

/-- The base64 alphabet used by OpenSSL BIO_f_base64. -/
def b64Table : List Char :=
  "ABCDEFGHIJKLMNOPQRSTUVWXYZabcdefghijklmnopqrstuvwxyz0123456789+/".toList

/-- Character encoding one 6-bit group. -/
def b64Char (n : Nat) : Char := b64Table.getD n 'A'

/-- base64_encode (main.cpp lines 14-31): OpenSSL BIO_f_base64 with
BIO_FLAGS_BASE64_NO_NL, i.e. standard RFC 4648 base64 with padding and no
line wrapping, applied to the input bytes. -/
def base64_encode : List Nat → List Char
  | [] => []
  | [a] => [b64Char (a / 4), b64Char (a % 4 * 16), '=', '=']
  | [a, b] =>
      [b64Char (a / 4), b64Char (a % 4 * 16 + b / 16), b64Char (b % 16 * 4), '=']
  | a :: b :: c :: rest =>
      b64Char (a / 4) :: b64Char (a % 4 * 16 + b / 16) ::
      b64Char (b % 16 * 4 + c / 64) :: b64Char (c % 64) :: base64_encode rest

/-- Six-bit value of a base64 alphabet character. -/
def b64Val (c : Char) : Option Nat := b64Table.findIdx? (fun x => x == c)

/-- Modelled from the spec: the decoder is not part of the source (the
client is encode-only); section 4.1 of the spec requires a standard-base64
decoder that fails (MalformedEncoding, here none) on an invalid alphabet
character or invalid padding, and that round-trips the encoder exactly. -/
def base64_decode : List Char → Option (List Nat)
  | [] => some []
  | c1 :: c2 :: c3 :: c4 :: rest =>
      match b64Val c1, b64Val c2 with
      | some a, some b =>
          if c3 == '=' then
            if c4 == '=' && rest.isEmpty && b % 16 == 0 then
              some [a * 4 + b / 16]
            else none
          else
            match b64Val c3 with
            | some c =>
                if c4 == '=' then
                  if rest.isEmpty && c % 4 == 0 then
                    some [a * 4 + b / 16, b % 16 * 16 + c / 4]
                  else none
                else
                  match b64Val c4, base64_decode rest with
                  | some d, some bytes =>
                      some ((a * 4 + b / 16) :: (b % 16 * 16 + c / 4) ::
                            (c % 4 * 64 + d) :: bytes)
                  | _, _ => none
            | none => none
      | _, _ => none
  | _ => none

/-- HTTP methods the client issues. -/
inductive Method where
  | GET
  | PUT
  | POST
  | DELETE
deriving DecidableEq, Repr

/-- One HTTP request as actually put on the wire by GitHubAPI::makeRequest:
URL, method, and the transmitted body (CURLOPT_POSTFIELDS), if any. -/
structure HttpCall where
  url : String
  method : Method
  body : Option JsonVal

/-- makeRequest (main.cpp lines 455-462) attaches its data argument via
CURLOPT_POSTFIELDS only for POST and PUT; for GET and DELETE no request
body is transmitted. -/
def transmittedBody (method : Method) (data : JsonVal) : Option JsonVal :=
  match method with
  | .POST => some data
  | .PUT => some data
  | _ => none

/-- The network: the parsed response for each issued call (none when the
response text does not parse as JSON, e.g. the empty response accumulated
after a transport failure). -/
abbrev Env : Type := HttpCall → Option JsonVal

/-- The local filesystem: the byte content of each readable path. -/
abbrev FS : Type := String → Option (List Nat)

/-- GitHubAPI credential state (token and username members). -/
structure GitHubAPI where
  token : String
  username : String
deriving Repr

/-- The fixed API base URL member of GitHubAPI. -/
def baseURL : String := "https://api.github.com"

/-- URL of the contents endpoint, as built at main.cpp lines 70-71,
142-143 and 163-164. -/
def contentsUrl (username repoName path : String) : String :=
  baseURL ++ "/repos/" ++ username ++ "/" ++ repoName ++ "/contents/" ++ path

/-- fs::path::filename() on a POSIX-style path (main.cpp lines 58-59). -/
def pathFilename (filePath : String) : String :=
  (filePath.splitOn "/").getLastD ""

/-- The single PUT call a single-file upload issues: the contents URL of
the file base name, with the key-sorted payload of the encoded content and
the commit message as transmitted body. -/
def uploadFilePutCall (api : GitHubAPI) (repoName filePath commitMessage : String)
    (content : List Nat) : HttpCall :=
  ⟨contentsUrl api.username repoName (pathFilename filePath), .PUT,
    transmittedBody .PUT (.obj
      [("content", .str (String.mk (base64_encode content))),
       ("message", .str commitMessage)])⟩

/-- GitHubAPI::uploadFile (main.cpp lines 518-528 and 49-88): open the
local file, failing at once when it cannot be opened; otherwise read it,
base64-encode the content, PUT the payload of content and message to the
contents URL of the file base name, and report success exactly when the
response parses as JSON and has a content member. -/
def uploadFile (api : GitHubAPI) (env : Env) (fsys : FS)
    (repoName filePath commitMessage : String) : Bool × List HttpCall :=
  match fsys filePath with
  | none => (false, [])
  | some content =>
      let call := uploadFilePutCall api repoName filePath commitMessage content
      let result :=
        match env call with
        | some responseJson => responseJson.isMember "content"
        | none => false
      (result, [call])

/-- The single PUT call uploadFileWithPath issues, targeting the
caller-supplied remote path. -/
def uploadWithPathPutCall (api : GitHubAPI) (repoName remotePath commitMessage : String)
    (content : List Nat) : HttpCall :=
  ⟨contentsUrl api.username repoName remotePath, .PUT,
    transmittedBody .PUT (.obj
      [("content", .str (String.mk (base64_encode content))),
       ("message", .str commitMessage)])⟩

/-- GitHubAPI::uploadFileWithPath (main.cpp lines 116-158): as uploadFile,
but the remote path is supplied by the caller instead of being the file
base name. -/
def uploadFileWithPath (api : GitHubAPI) (env : Env) (fsys : FS)
    (repoName localPath remotePath commitMessage : String) : Bool × List HttpCall :=
  match fsys localPath with
  | none => (false, [])
  | some content =>
      let call := uploadWithPathPutCall api repoName remotePath commitMessage content
      let result :=
        match env call with
        | some responseJson => responseJson.isMember "content"
        | none => false
      (result, [call])

/-- A filesystem entry yielded by fs::recursive_directory_iterator, given
by its path relative to the walked root (as components) together with
whether it is a regular file. -/
structure Entry where
  relComponents : List String
  isRegularFile : Bool

/-- The derivation at main.cpp line 97, the string of
fs::relative(entry.path(), dirPath): the relative path rendered with the
native separator sep of the platform. -/
def relString (sep : Char) (components : List String) : String :=
  String.intercalate (String.singleton sep) components

/-- Tallies of one uploadDirectory run: the success and failure counters
and, per attempted file, the relative path printed by the Uploading log
line (main.cpp line 98), in walk order. -/
structure DirStats where
  successCount : Nat
  failCount : Nat
  attempted : List String
deriving DecidableEq, Repr

/-- The loop of GitHubAPI::uploadDirectory (main.cpp lines 95-107): for
each regular file of the walk, compute its relative path, log it, attempt
uploadFileWithPath and bump the matching counter; entries that are not
regular files are skipped, and no failure stops the loop. -/
def uploadDirEntries (api : GitHubAPI) (env : Env) (fsys : FS) (sep : Char)
    (repoName dirPath commitMessage : String) : List Entry → DirStats
  | [] => ⟨0, 0, []⟩
  | e :: rest =>
      let tail := uploadDirEntries api env fsys sep repoName dirPath commitMessage rest
      if e.isRegularFile then
        let relativePath := relString sep e.relComponents
        let entryPath := dirPath ++ String.singleton sep ++ relativePath
        if (uploadFileWithPath api env fsys repoName entryPath relativePath
            commitMessage).1 then
          ⟨tail.successCount + 1, tail.failCount, relativePath :: tail.attempted⟩
        else
          ⟨tail.successCount, tail.failCount + 1, relativePath :: tail.attempted⟩
      else tail

/-- GitHubAPI::uploadDirectory (main.cpp lines 90-114): run the walk over
the enumerated entries and report overall success exactly when no file
failed. -/
def uploadDirectory (api : GitHubAPI) (env : Env) (fsys : FS) (sep : Char)
    (repoName dirPath commitMessage : String) (entries : List Entry) :
    Bool × DirStats :=
  let stats := uploadDirEntries api env fsys sep repoName dirPath commitMessage entries
  (stats.failCount == 0, stats)

/-- The message-and-sha request body deleteFile builds for its DELETE
(main.cpp lines 180-185), in the key-sorted order of Json::Value. -/
def deleteRequestBody (commitMessage sha : String) : JsonVal :=
  .obj [("message", .str commitMessage), ("sha", .str sha)]

/-- GitHubAPI::deleteFile (main.cpp lines 160-191): GET the contents URL;
when the response does not parse, fail with no further call; otherwise
take sha from the response (defaulting to the empty string when the member
is absent), build the message-and-sha payload, issue the DELETE — for
which makeRequest transmits no body — ignore its response, and report
success unconditionally. -/
def deleteFile (api : GitHubAPI) (env : Env)
    (repoName filePath commitMessage : String) : Bool × List HttpCall :=
  let url := contentsUrl api.username repoName filePath
  let getCall : HttpCall := ⟨url, .GET, none⟩
  match env getCall with
  | none => (false, [getCall])
  | some responseJson =>
      let sha := (responseJson.member "sha").asString
      let payload := deleteRequestBody commitMessage sha
      let delCall : HttpCall := ⟨url, .DELETE, transmittedBody .DELETE payload⟩
      (true, [getCall, delCall])

/-- GitHubAPI::getUserInfo (main.cpp lines 216-237): GET the user endpoint
and report success exactly when the response parses as JSON; the member
reads that follow use the jsoncpp defaults and cannot fail. -/
def getUserInfo (_api : GitHubAPI) (env : Env) : Bool × List HttpCall :=
  let call : HttpCall := ⟨baseURL ++ "/user", .GET, none⟩
  match env call with
  | some _ => (true, [call])
  | none => (false, [call])

/-- Outcome of the authentication probe in ProjectManager::initialize. -/
inductive InitOutcome where
  | authenticated
  | exited (code : Nat)
deriving DecidableEq, Repr

/-- The authentication probe of ProjectManager::initialize (main.cpp lines
314-319): a successful getUserInfo continues the session, a failed one
calls exit(1). -/
def initializeAuth (api : GitHubAPI) (env : Env) : InitOutcome :=
  if (getUserInfo api env).1 then .authenticated else .exited 1

/-- Modelled from the spec: PathMapper.toRemotePath renders the path
relative to the root with every platform separator replaced by the forward
slash (spec sections 4.3 and 8); the InvalidPath cases of the spec have no
counterpart in the source. -/
def specToRemotePath (relComponents : List String) : String :=
  String.intercalate "/" relComponents

/-- A fixed credential state for concrete runs. -/
def testApi : GitHubAPI := ⟨"tok", "alice"⟩

/-- A filesystem holding a two-byte file at every path. -/
def fsHi : FS := fun _ => some [104, 105]

/-- A filesystem with no readable file. -/
def fsEmpty : FS := fun _ => none

/-- A remote on which the targeted path already holds content: metadata
GETs answer with its sha, and a sha-less PUT is rejected with an error
body that has no content member. -/
def envExisting : Env := fun call =>
  if call.method == .GET then some (.obj [("sha", .str "a94a8fe5ccb19ba6")])
  else some (.obj [("message", .str "Invalid request. sha was not supplied.")])

/-- A remote with no content at the targeted path: every request is
answered with the not-found error body, which is valid JSON without a sha
member and without a content member. -/
def envNotFound : Env := fun _ => some (.obj [("message", .str "Not Found")])

/-- A remote answering every request with the invalid-credentials error
body (valid JSON). -/
def envBadCredentials : Env := fun _ =>
  some (.obj [("message", .str "Bad credentials")])

/-- A remote where metadata GETs resolve a sha but every other request
fails in transport, so its response does not parse. -/
def envDeleteFails : Env := fun call =>
  if call.method == .GET then some (.obj [("sha", .str "abc123")]) else none

/-- Like envDeleteFails on metadata GETs, but the DELETE is accepted and
answers with a commit body. -/
def envDeleteOk : Env := fun call =>
  if call.method == .GET then some (.obj [("sha", .str "abc123")])
  else some (.obj [("commit", .obj [])])

/-- A remote accepting every upload: each response carries a content
member. -/
def envAccepts : Env := fun _ => some (.obj [("content", .obj [])])

/-- A transport that always fails: no response ever parses. -/
def envDown : Env := fun _ => none

/-- Every 6-bit value decodes back from its alphabet character. -/
theorem b64Val_b64Char : ∀ n, n < 64 → b64Val (b64Char n) = some n := by decide

/-- No alphabet character is the padding character. -/
theorem b64Char_ne_pad : ∀ n, n < 64 → (b64Char n == '=') = false := by decide

/-- C7 (confirmed): decoding the output of the encoder returns the input
bytes exactly, for every byte sequence — empty included — whose elements
are bytes (below 256); the encoder is the standard unwrapped base64 of the
source, the decoder is modelled from the spec. -/
theorem b64_roundtrip (bs : List Nat) (h : ∀ x ∈ bs, x < 256) :
    base64_decode (base64_encode bs) = some bs :=
  match bs, h with
  | [], _ => rfl
  | [a], h => by
      have ha : a < 256 := h a (by simp)
      have h1 := b64Val_b64Char (a / 4) (by omega)
      have h2 := b64Val_b64Char (a % 4 * 16) (by omega)
      simp [base64_encode, base64_decode, h1, h2, Nat.mul_mod_left]
      omega
  | [a, b], h => by
      have ha : a < 256 := h a (by simp)
      have hb : b < 256 := h b (by simp)
      have h1 := b64Val_b64Char (a / 4) (by omega)
      have h2 := b64Val_b64Char (a % 4 * 16 + b / 16) (by omega)
      have h3 := b64Val_b64Char (b % 16 * 4) (by omega)
      have hne3 := b64Char_ne_pad (b % 16 * 4) (by omega)
      simp [base64_encode, base64_decode, h1, h2, h3, hne3, Nat.mul_mod_left]
      omega
  | a :: b :: c :: rest, h => by
      have ha : a < 256 := h a (by simp)
      have hb : b < 256 := h b (by simp)
      have hc : c < 256 := h c (by simp)
      have ih := b64_roundtrip rest (fun x hx => h x (by simp [hx]))
      have h1 := b64Val_b64Char (a / 4) (by omega)
      have h2 := b64Val_b64Char (a % 4 * 16 + b / 16) (by omega)
      have h3 := b64Val_b64Char (b % 16 * 4 + c / 64) (by omega)
      have h4 := b64Val_b64Char (c % 64) (by omega)
      have hne3 := b64Char_ne_pad (b % 16 * 4 + c / 64) (by omega)
      have hne4 := b64Char_ne_pad (c % 64) (by omega)
      simp [base64_encode, base64_decode, h1, h2, h3, h4, hne3, hne4, ih]
      refine ⟨by omega, by omega, by omega⟩

set_option maxRecDepth 4000 in
/-- Witness for C7 at the concrete sequence of all byte values 0 to 255. -/
theorem b64_roundtrip_witness :
    (∀ x ∈ List.range 256, x < 256) ∧
    base64_decode (base64_encode (List.range 256)) = some (List.range 256) :=
  ⟨by decide, b64_roundtrip (List.range 256) (by decide)⟩

/-- Unfolding of uploadFile on a readable local file: the result is read
off the response of the one PUT call, and that call is the whole trace. -/
theorem uploadFile_eq (api : GitHubAPI) (env : Env) (fsys : FS)
    (repoName filePath commitMessage : String) (content : List Nat)
    (h : fsys filePath = some content) :
    uploadFile api env fsys repoName filePath commitMessage =
      ((match env (uploadFilePutCall api repoName filePath commitMessage content) with
        | some responseJson => responseJson.isMember "content"
        | none => false),
       [uploadFilePutCall api repoName filePath commitMessage content]) := by
  simp [uploadFile, h]

/-- Unfolding of uploadFileWithPath on a readable local file. -/
theorem uploadFileWithPath_eq (api : GitHubAPI) (env : Env) (fsys : FS)
    (repoName localPath remotePath commitMessage : String) (content : List Nat)
    (h : fsys localPath = some content) :
    uploadFileWithPath api env fsys repoName localPath remotePath commitMessage =
      ((match env (uploadWithPathPutCall api repoName remotePath commitMessage content) with
        | some responseJson => responseJson.isMember "content"
        | none => false),
       [uploadWithPathPutCall api repoName remotePath commitMessage content]) := by
  simp [uploadFileWithPath, h]

/-- C1 counterexample: on the remote envExisting — whose target path
already holds content — the single-file upload issues exactly one PUT and
no metadata GET at all, so no getMetadata precedes the putContent. -/
theorem uploadFile_no_get_counterexample :
    ((uploadFile testApi envExisting fsHi "proj" "f.txt" "msg").2.map
      HttpCall.method = [.PUT]) ∧
    ((uploadFile testApi envExisting fsHi "proj" "f.txt" "msg").2.filter
      (fun c => c.method == .GET)) = [] := by
  exact ⟨rfl, rfl⟩

/-- C1 (corrected): a single-file upload of a readable local file issues
exactly one HTTP call — a PUT whose transmitted body has content and
message members and no sha member — and never precedes it with a metadata
GET, whatever the remote holds at the target path. -/
theorem uploadFile_put_without_prior_get
    (api : GitHubAPI) (env : Env) (fsys : FS)
    (repoName filePath commitMessage : String) (content : List Nat)
    (h : fsys filePath = some content) :
    (uploadFile api env fsys repoName filePath commitMessage).2 =
      [uploadFilePutCall api repoName filePath commitMessage content] ∧
    (uploadFilePutCall api repoName filePath commitMessage content).method = .PUT ∧
    ((uploadFilePutCall api repoName filePath commitMessage content).body.getD
      .null).isMember "sha" = false ∧
    ((uploadFilePutCall api repoName filePath commitMessage content).body.getD
      .null).isMember "content" = true ∧
    ((uploadFilePutCall api repoName filePath commitMessage content).body.getD
      .null).isMember "message" = true := by
  refine ⟨?_, rfl, rfl, rfl, rfl⟩
  simp [uploadFile, h]

/-- Witness for C1 at concrete inputs. -/
theorem uploadFile_put_without_prior_get_witness :
    fsHi "f.txt" = some [104, 105] ∧
    (uploadFile testApi envExisting fsHi "proj" "f.txt" "msg").2 =
      [uploadFilePutCall testApi "proj" "f.txt" "msg" [104, 105]] :=
  ⟨rfl, (uploadFile_put_without_prior_get testApi envExisting fsHi "proj" "f.txt"
      "msg" [104, 105] rfl).1⟩

/-- C2 counterexample: with no content at the remote path — the metadata
GET is answered by the parseable not-found error body of envNotFound — the
delete still reports success and issues one DELETE write call instead of
failing with zero write calls. -/
theorem deleteFile_missing_remote_counterexample :
    (deleteFile testApi envNotFound "proj" "gone.txt" "msg").1 = true ∧
    ((deleteFile testApi envNotFound "proj" "gone.txt" "msg").2.filter
      (fun c => c.method == .DELETE)).length = 1 := by
  exact ⟨rfl, rfl⟩

/-- C2 (corrected): the delete fails — with zero DELETE calls — only when
the metadata response fails to parse as JSON; whenever the metadata GET
yields any JSON body, in particular the not-found error body whose missing
sha member defaults to the empty string, the code issues exactly one
DELETE (with no transmitted body) and reports success. -/
theorem deleteFile_parse_decides
    (api : GitHubAPI) (env : Env) (repoName filePath commitMessage : String) :
    (env ⟨contentsUrl api.username repoName filePath, .GET, none⟩ = none →
      deleteFile api env repoName filePath commitMessage =
        (false, [⟨contentsUrl api.username repoName filePath, .GET, none⟩])) ∧
    (∀ j, env ⟨contentsUrl api.username repoName filePath, .GET, none⟩ = some j →
      deleteFile api env repoName filePath commitMessage =
        (true, [⟨contentsUrl api.username repoName filePath, .GET, none⟩,
                ⟨contentsUrl api.username repoName filePath, .DELETE, none⟩])) := by
  constructor
  · intro hnone
    simp [deleteFile, hnone, transmittedBody]
  · intro j hj
    simp [deleteFile, hj, transmittedBody]

/-- Witness for C2 at concrete inputs: a transport failure on the metadata
GET, and the parseable not-found body. -/
theorem deleteFile_parse_decides_witness :
    deleteFile testApi envDown "proj" "f.txt" "msg" =
      (false, [⟨contentsUrl "alice" "proj" "f.txt", .GET, none⟩]) ∧
    deleteFile testApi envNotFound "proj" "f.txt" "msg" =
      (true, [⟨contentsUrl "alice" "proj" "f.txt", .GET, none⟩,
              ⟨contentsUrl "alice" "proj" "f.txt", .DELETE, none⟩]) :=
  ⟨(deleteFile_parse_decides testApi envDown "proj" "f.txt" "msg").1 rfl,
   (deleteFile_parse_decides testApi envNotFound "proj" "f.txt" "msg").2
     (.obj [("message", .str "Not Found")]) rfl⟩

/-- C3 (code bug): deleteFile builds the message-and-sha body and hands it
to makeRequest, but makeRequest transmits a body only for POST and PUT, so
the DELETE goes out on the wire with no body at all — shown here at a
concrete delete against a remote that resolves the sha abc123. -/
theorem deleteFile_delete_body_dropped :
    (deleteRequestBody "msg" "abc123").isMember "message" = true ∧
    (deleteRequestBody "msg" "abc123").isMember "sha" = true ∧
    transmittedBody .DELETE (deleteRequestBody "msg" "abc123") = none ∧
    (deleteFile testApi envDeleteOk "proj" "f.txt" "msg").2 =
      [⟨contentsUrl "alice" "proj" "f.txt", .GET, none⟩,
       ⟨contentsUrl "alice" "proj" "f.txt", .DELETE, none⟩] := by
  exact ⟨rfl, rfl, rfl, rfl⟩

/-- C4 counterexample: under envDeleteFails the DELETE call itself fails
in transport — its response does not parse — yet the delete reports
success. -/
theorem deleteFile_success_despite_delete_failure :
    envDeleteFails ⟨contentsUrl "alice" "proj" "f.txt", .DELETE, none⟩ = none ∧
    (deleteFile testApi envDeleteFails "proj" "f.txt" "msg").1 = true := by
  exact ⟨rfl, rfl⟩

/-- C4 (corrected): the outcome of a delete depends only on the metadata
GET response; the DELETE response — acceptance, rejection or transport
failure — is ignored: two environments that agree on the metadata GET
produce identical results and identical call traces. -/
theorem deleteFile_ignores_delete_response
    (api : GitHubAPI) (env env' : Env) (repoName filePath commitMessage : String)
    (hagree : env ⟨contentsUrl api.username repoName filePath, .GET, none⟩ =
      env' ⟨contentsUrl api.username repoName filePath, .GET, none⟩) :
    deleteFile api env repoName filePath commitMessage =
      deleteFile api env' repoName filePath commitMessage := by
  simp only [deleteFile]
  rw [hagree]

/-- Witness for C4: environments agreeing on the metadata GET but
differing on the DELETE outcome give the same reported result. -/
theorem deleteFile_ignores_delete_response_witness :
    envDeleteFails ⟨contentsUrl "alice" "proj" "f.txt", .GET, none⟩ =
      envDeleteOk ⟨contentsUrl "alice" "proj" "f.txt", .GET, none⟩ ∧
    deleteFile testApi envDeleteFails "proj" "f.txt" "msg" =
      deleteFile testApi envDeleteOk "proj" "f.txt" "msg" :=
  ⟨rfl, deleteFile_ignores_delete_response testApi envDeleteFails envDeleteOk
    "proj" "f.txt" "msg" rfl⟩

/-- C5 counterexample: the remote answers the authentication probe with
the parseable invalid-credentials error body; getUserInfo still reports
success and the session proceeds instead of exiting. -/
theorem initialize_bad_credentials_proceeds :
    (getUserInfo testApi envBadCredentials).1 = true ∧
    initializeAuth testApi envBadCredentials = .authenticated := by
  exact ⟨rfl, rfl⟩

/-- C5 (corrected): the startup probe terminates the session with exit
status 1 exactly when the response of the user endpoint fails to parse as
JSON (e.g. a transport failure); any parseable body — an
invalid-credentials error included — is treated as successful
authentication. -/
theorem initializeAuth_exits_iff_unparseable (api : GitHubAPI) (env : Env) :
    initializeAuth api env = .exited 1 ↔
      env ⟨baseURL ++ "/user", .GET, none⟩ = none := by
  cases h : env ⟨baseURL ++ "/user", .GET, none⟩ with
  | none => simp [initializeAuth, getUserInfo, h]
  | some j => simp [initializeAuth, getUserInfo, h]

/-- Witness for C5 at the two concrete environments. -/
theorem initializeAuth_exits_iff_unparseable_witness :
    (initializeAuth testApi envDown = .exited 1 ↔
      envDown ⟨baseURL ++ "/user", .GET, none⟩ = none) ∧
    (initializeAuth testApi envBadCredentials = .exited 1 ↔
      envBadCredentials ⟨baseURL ++ "/user", .GET, none⟩ = none) :=
  ⟨initializeAuth_exits_iff_unparseable testApi envDown,
   initializeAuth_exits_iff_unparseable testApi envBadCredentials⟩

/-- Loop invariant of the directory upload: the two counters partition the
regular files of the walk, and the attempted log lists their relative
paths in walk order. -/
theorem uploadDirEntries_stats (api : GitHubAPI) (env : Env) (fsys : FS)
    (sep : Char) (repoName dirPath commitMessage : String) :
    ∀ entries : List Entry,
    (uploadDirEntries api env fsys sep repoName dirPath commitMessage
        entries).successCount +
      (uploadDirEntries api env fsys sep repoName dirPath commitMessage
        entries).failCount =
      (entries.filter (fun e => e.isRegularFile)).length ∧
    (uploadDirEntries api env fsys sep repoName dirPath commitMessage
        entries).attempted =
      (entries.filter (fun e => e.isRegularFile)).map
        (fun e => relString sep e.relComponents) := by
  intro entries
  induction entries with
  | nil => simp [uploadDirEntries]
  | cons e rest ih =>
      by_cases hreg : e.isRegularFile = true
      · by_cases hup : (uploadFileWithPath api env fsys repoName
            (dirPath ++ String.singleton sep ++ relString sep e.relComponents)
            (relString sep e.relComponents) commitMessage).1 = true
        · have hc := ih.1
          simp [uploadDirEntries, hreg, hup, List.filter_cons, ih.2]
          omega
        · have hc := ih.1
          simp [uploadDirEntries, hreg, hup, List.filter_cons, ih.2]
          omega
      · simp [uploadDirEntries, hreg, List.filter_cons, ih.1, ih.2]

/-- C6 (confirmed): in a tree upload every enumerated regular file is
attempted, in walk order, and the success and failure tallies partition
the attempted files: their sum is the number of enumerated regular files,
and the attempted log lists exactly the relative paths of those files, so
no failure stops the remaining entries from being processed. -/
theorem uploadDirectory_attempts_every_file
    (api : GitHubAPI) (env : Env) (fsys : FS) (sep : Char)
    (repoName dirPath commitMessage : String) (entries : List Entry) :
    (uploadDirectory api env fsys sep repoName dirPath commitMessage
        entries).2.successCount +
      (uploadDirectory api env fsys sep repoName dirPath commitMessage
        entries).2.failCount =
      (entries.filter (fun e => e.isRegularFile)).length ∧
    (uploadDirectory api env fsys sep repoName dirPath commitMessage
        entries).2.attempted =
      (entries.filter (fun e => e.isRegularFile)).map
        (fun e => relString sep e.relComponents) := by
  have h := uploadDirEntries_stats api env fsys sep repoName dirPath
    commitMessage entries
  simpa [uploadDirectory] using h

/-- C8 counterexample: on a platform whose native separator is the
backslash, the walk derives the relative path with the backslash kept, so
it differs from the separator-normalized remote path the claim requires. -/
theorem relString_not_normalized_counterexample :
    relString '\\' ["a", "b.txt"] ≠ specToRemotePath ["a", "b.txt"] := by
  decide

/-- C8 (corrected): the derived remote path is the relative path joined
with the native separator of the platform, kept unchanged and never
rejected — the derivation is total, with no InvalidPath outcome; it
coincides with the forward-slash path of the spec exactly on platforms
whose separator is already the slash. -/
theorem relString_native_separator :
    (∀ components, relString '/' components = specToRemotePath components) ∧
    relString '\\' ["a", "b.txt"] = "a\\b.txt" := by
  refine ⟨fun components => rfl, rfl⟩

/-- C9 (confirmed): when the local path is not a readable file, the upload
fails at once and issues no remote call. -/
theorem uploadFile_local_missing_fails_fast
    (api : GitHubAPI) (env : Env) (fsys : FS)
    (repoName filePath commitMessage : String)
    (h : fsys filePath = none) :
    uploadFile api env fsys repoName filePath commitMessage = (false, []) := by
  simp [uploadFile, h]

/-- Witness for C9 at concrete inputs. -/
theorem uploadFile_local_missing_fails_fast_witness :
    fsEmpty "f.txt" = none ∧
    uploadFile testApi envAccepts fsEmpty "proj" "f.txt" "msg" = (false, []) :=
  ⟨rfl, uploadFile_local_missing_fails_fast testApi envAccepts fsEmpty "proj"
    "f.txt" "msg" rfl⟩

/-- C10 (confirmed): an upload — single-file, or per-file during a tree
upload — reports success exactly when the response of its PUT parses as
JSON and carries a content member; the single Boolean failure value covers
every other outcome undifferentiated. -/
theorem upload_success_iff_content_member
    (api : GitHubAPI) (env : Env) (fsys : FS)
    (repoName filePath localPath remotePath commitMessage : String)
    (content contentW : List Nat)
    (h : fsys filePath = some content) (hw : fsys localPath = some contentW) :
    ((uploadFile api env fsys repoName filePath commitMessage).1 = true ↔
      ∃ j, env (uploadFilePutCall api repoName filePath commitMessage content) =
        some j ∧ j.isMember "content" = true) ∧
    ((uploadFileWithPath api env fsys repoName localPath remotePath
        commitMessage).1 = true ↔
      ∃ j, env (uploadWithPathPutCall api repoName remotePath commitMessage
        contentW) = some j ∧ j.isMember "content" = true) := by
  constructor
  · rw [uploadFile_eq api env fsys repoName filePath commitMessage content h]
    cases henv : env (uploadFilePutCall api repoName filePath commitMessage
        content) with
    | none => simp [henv]
    | some j => simp [henv]
  · rw [uploadFileWithPath_eq api env fsys repoName localPath remotePath
        commitMessage contentW hw]
    cases henv : env (uploadWithPathPutCall api repoName remotePath
        commitMessage contentW) with
    | none => simp [henv]
    | some j => simp [henv]

/-- Witness for C10 at concrete inputs. -/
theorem upload_success_iff_content_member_witness :
    fsHi "a.txt" = some [104, 105] ∧
    ((uploadFile testApi envAccepts fsHi "proj" "a.txt" "msg").1 = true ↔
      ∃ j, envAccepts (uploadFilePutCall testApi "proj" "a.txt" "msg"
        [104, 105]) = some j ∧ j.isMember "content" = true) ∧
    ((uploadFileWithPath testApi envAccepts fsHi "proj" "a.txt" "sub/a.txt"
        "msg").1 = true ↔
      ∃ j, envAccepts (uploadWithPathPutCall testApi "proj" "sub/a.txt" "msg"
        [104, 105]) = some j ∧ j.isMember "content" = true) :=
  ⟨rfl,
   (upload_success_iff_content_member testApi envAccepts fsHi "proj" "a.txt"
     "a.txt" "sub/a.txt" "msg" [104, 105] [104, 105] rfl rfl).1,
   (upload_success_iff_content_member testApi envAccepts fsHi "proj" "a.txt"
     "a.txt" "sub/a.txt" "msg" [104, 105] [104, 105] rfl rfl).2⟩

end GithubManager
